import Mathlib

set_option linter.unusedVariables false

/-! Verification of an OpenFST source slice: the logging and check shim
(src/include/fst/log.h), the topological-sort command-line driver
(src/bin/fsttopsort-main.cc), and the weight-property regression harness
(src/test/weight-tester.h). The C++ is shallowly embedded: stream output
becomes explicit message values, process exit becomes an explicit exit-code
field, and the template parameter Weight of the harness becomes a structure
of operations. -/

/-- Outcome of one logging statement: the line printed to standard error and,
when the message type is fatal, the process exit code it forces. Models class
LogMessage of src/include/fst/log.h (lines 32-46). -/
structure LogOutcome where
  message : String
  exited : Option Nat
deriving DecidableEq, Repr

/-- Models constructing LogMessage(type), streaming body into it and running
the destructor: standard error receives "type: body" and, when the type is
FATAL, the process exits with code 1 (log.h lines 34-41). -/
def LogMessage (type : String) (body : String) : LogOutcome :=
  { message := type ++ ": " ++ body
  , exited := if type = "FATAL" then some 1 else none }

/-- Models inline void FstCheck of log.h (lines 52-59): a passing check emits
nothing; a failing check emits a FATAL message naming the checked expression
text, the source file and the line, which terminates the process. -/
def FstCheck (x : Bool) (expr : String) (file : String) (line : Nat) : Option LogOutcome :=
  if x then none
  else some (LogMessage "FATAL"
    ("Check failed: \"" ++ expr ++ "\" file: " ++ file ++ " line: " ++ toString line))

/-- Observable result of one run of the fsttopsort driver: whether the usage
text was shown, whether a read of the input was attempted, how many times
TopSort was invoked, the log lines sent to standard error, the graph written
(if any) and the process exit code. -/
structure DriverResult (F : Type) where
  usageShown : Bool
  readAttempted : Bool
  topSortCalls : Nat
  stderrLog : List LogOutcome
  written : Option F
  exitCode : Nat

/-- Input file name selection of fsttopsort-main.cc line 30: argv[1] unless it
is absent or "-", in which case the empty string (standard input). -/
def inName (argv : List String) : String :=
  if argv.length > 1 ∧ argv.getD 1 "" ≠ "-" then argv.getD 1 "" else ""

/-- Output file name selection of fsttopsort-main.cc line 31: argv[2] if
present, otherwise the empty string (standard output). -/
def outName (argv : List String) : String :=
  if argv.length > 2 then argv.getD 2 "" else ""

/-- Models int fsttopsort_main(argc, argv) of src/bin/fsttopsort-main.cc.
The collaborators declared outside this slice are abstract parameters:
read models MutableFstClass::Read (returning none on failure), topSort
models fst::script::TopSort (returning the acyclicity verdict and the
possibly permuted graph), write models MutableFstClass::Write (returning
success). argv includes the program name, so argv.length models argc after
flag parsing. -/
def fsttopsort_main (F : Type) (argv : List String)
    (read : String → Option F) (topSort : F → Bool × F)
    (write : F → String → Bool) : DriverResult F :=
  if argv.length > 3 then
    { usageShown := true, readAttempted := false, topSortCalls := 0
    , stderrLog := [], written := none, exitCode := 1 }
  else
    match read (inName argv) with
    | none =>
      { usageShown := false, readAttempted := true, topSortCalls := 0
      , stderrLog := [], written := none, exitCode := 1 }
    | some f =>
      let res := topSort f
      { usageShown := false, readAttempted := true, topSortCalls := 1
      , stderrLog :=
          if res.1 then []
          else [LogMessage "WARNING" (argv.headD "" ++ ": Input FST is cyclic")]
      , written := some res.2
      , exitCode := if write res.2 (outName argv) then 0 else 1 }

/-- Modelled from the spec: the division side selector DivideType declared in
fst/weight.h, which is not part of this source slice; the harness passes
DIVIDE_LEFT and DIVIDE_RIGHT to Divide. -/
inductive DivideType where
  | DIVIDE_LEFT
  | DIVIDE_RIGHT
  | DIVIDE_ANY
deriving DecidableEq, Repr

/-- Modelled from the spec: the LeftSemiring flag of the property bitmask
declared in fst/weight.h, absent from this source slice; the spec lists
LeftSemiring, RightSemiring, Semiring, Commutative, Idempotent and Path as
mask entries. -/
def kLeftSemiring : Nat := 1

/-- Modelled from the spec: the RightSemiring flag of the property bitmask of
fst/weight.h, absent from this source slice. -/
def kRightSemiring : Nat := 2

/-- Modelled from the spec: the Semiring flag of the property bitmask of
fst/weight.h, absent from this source slice; per the spec it stands for both
one-sided semiring properties together. -/
def kSemiring : Nat := kLeftSemiring ||| kRightSemiring

/-- Modelled from the spec: the Commutative flag of the property bitmask of
fst/weight.h, absent from this source slice. -/
def kCommutative : Nat := 4

/-- Modelled from the spec: the Idempotent flag of the property bitmask of
fst/weight.h, absent from this source slice. -/
def kIdempotent : Nat := 8

/-- Modelled from the spec: the Path flag of the property bitmask of
fst/weight.h, absent from this source slice. -/
def kPath : Nat := 16

/-- Modelled from the spec: the capability set a Weight class supplies to the
template harness of src/test/weight-tester.h (the Weight template parameter
together with the free functions Plus, Times, Divide, ApproxEqual and the
stream operators of fst/weight.h, which is absent from this source slice).
W is the weight type, R its ReverseWeight type, B the binary serialized form
and T the textual form. Boolean eq models operator==, req models operator==
on ReverseWeight, props models Weight::Properties(). -/
structure WeightType (W R B T : Type) where
  plus : W → W → W
  times : W → W → W
  zero : W
  one : W
  noWeight : W
  member : W → Bool
  eq : W → W → Bool
  approxEqual : W → W → Bool
  props : Nat
  divide : W → W → DivideType → W
  reverse : W → R
  rreverse : R → W
  rplus : R → R → R
  rtimes : R → R → R
  req : R → R → Bool
  writeBin : W → B
  readBin : B → W
  showText : W → T
  readText : T → W

/-- Modelled from the spec: the generic Power of fst/weight.h, absent from
this source slice; the spec defines Power(w, n) recursively as repeated Times
with Power(w, 0) = One(). -/
def WeightType.Power {W R B T : Type} (wt : WeightType W R B T) (w : W) : Nat → W
  | 0 => wt.one
  | n + 1 => wt.times (wt.Power w n) w

/-- Models WeightTester::TestSemiring of src/test/weight-tester.h
(lines 54-115): each conjunct is one FST_CHECK, in source order; a
conditional check appears as an implication from the mask condition. -/
@[reducible] def TestSemiring {W R B T : Type} (wt : WeightType W R B T) (w1 w2 w3 : W) : Prop :=
  wt.member (wt.plus w1 w2) = true
  ∧ wt.member (wt.times w1 w2) = true
  ∧ wt.approxEqual (wt.plus w1 (wt.plus w2 w3)) (wt.plus (wt.plus w1 w2) w3) = true
  ∧ wt.approxEqual (wt.times w1 (wt.times w2 w3)) (wt.times (wt.times w1 w2) w3) = true
  ∧ wt.eq (wt.plus w1 wt.zero) w1 = true
  ∧ wt.eq (wt.plus wt.zero w1) w1 = true
  ∧ wt.eq (wt.times w1 wt.one) w1 = true
  ∧ wt.eq (wt.times wt.one w1) w1 = true
  ∧ wt.member wt.noWeight = false
  ∧ wt.member (wt.plus w1 wt.noWeight) = false
  ∧ wt.member (wt.plus wt.noWeight w1) = false
  ∧ wt.member (wt.times w1 wt.noWeight) = false
  ∧ wt.member (wt.times wt.noWeight w1) = false
  ∧ wt.approxEqual (wt.plus w1 w2) (wt.plus w2 w1) = true
  ∧ (wt.props &&& kCommutative ≠ 0 →
      wt.approxEqual (wt.times w1 w2) (wt.times w2 w1) = true)
  ∧ wt.eq (wt.times w1 wt.zero) wt.zero = true
  ∧ wt.eq (wt.times wt.zero w1) wt.zero = true
  ∧ wt.eq (wt.Power w1 0) wt.one = true
  ∧ wt.eq (wt.Power w1 1) w1 = true
  ∧ wt.eq (wt.Power w1 3) (wt.times w1 (wt.times w1 w1)) = true
  ∧ (wt.props &&& kLeftSemiring ≠ 0 →
      wt.approxEqual (wt.times w1 (wt.plus w2 w3))
        (wt.plus (wt.times w1 w2) (wt.times w1 w3)) = true)
  ∧ (wt.props &&& kRightSemiring ≠ 0 →
      wt.approxEqual (wt.times (wt.plus w1 w2) w3)
        (wt.plus (wt.times w1 w3) (wt.times w2 w3)) = true)
  ∧ (wt.props &&& kIdempotent ≠ 0 → wt.eq (wt.plus w1 w1) w1 = true)
  ∧ (wt.props &&& kPath ≠ 0 →
      (wt.eq (wt.plus w1 w2) w1 = true ∨ wt.eq (wt.plus w1 w2) w2 = true))
  ∧ wt.props &&& (kLeftSemiring ||| kRightSemiring) ≠ 0
  ∧ (wt.props &&& kCommutative ≠ 0 → wt.props &&& kSemiring ≠ 0)

/-- Models WeightTester::TestDivision of src/test/weight-tester.h
(lines 118-139): each branch is guarded by the declared property mask exactly
as in the source, and the recombination checks apply only when the quotient
is a member. -/
@[reducible] def TestDivision {W R B T : Type} (wt : WeightType W R B T) (w1 w2 : W) : Prop :=
  (wt.props &&& kLeftSemiring ≠ 0 →
    ((wt.member (wt.divide (wt.times w1 w2) w1 DivideType.DIVIDE_LEFT) = true →
        wt.approxEqual (wt.times w1 w2)
          (wt.times w1 (wt.divide (wt.times w1 w2) w1 DivideType.DIVIDE_LEFT)) = true)
      ∧ wt.member (wt.divide w1 wt.noWeight DivideType.DIVIDE_LEFT) = false
      ∧ wt.member (wt.divide wt.noWeight w1 DivideType.DIVIDE_LEFT) = false))
  ∧ (wt.props &&& kRightSemiring ≠ 0 →
    ((wt.member (wt.divide (wt.times w1 w2) w2 DivideType.DIVIDE_RIGHT) = true →
        wt.approxEqual (wt.times w1 w2)
          (wt.times (wt.divide (wt.times w1 w2) w2 DivideType.DIVIDE_RIGHT) w2) = true)
      ∧ wt.member (wt.divide w1 wt.noWeight DivideType.DIVIDE_RIGHT) = false
      ∧ wt.member (wt.divide wt.noWeight w1 DivideType.DIVIDE_RIGHT) = false))
  ∧ (wt.props &&& kCommutative ≠ 0 →
    (wt.member (wt.divide (wt.times w1 w2) w1 DivideType.DIVIDE_RIGHT) = true →
      wt.approxEqual (wt.times w1 w2)
        (wt.times (wt.divide (wt.times w1 w2) w1 DivideType.DIVIDE_RIGHT) w1) = true))

/-- Models WeightTester::TestReverse of src/test/weight-tester.h
(lines 142-151). -/
@[reducible] def TestReverse {W R B T : Type} (wt : WeightType W R B T) (w1 w2 : W) : Prop :=
  wt.eq (wt.rreverse (wt.reverse w1)) w1 = true
  ∧ wt.req (wt.reverse (wt.plus w1 w2)) (wt.rplus (wt.reverse w1) (wt.reverse w2)) = true
  ∧ wt.req (wt.reverse (wt.times w1 w2)) (wt.rtimes (wt.reverse w2) (wt.reverse w1)) = true

/-- Models WeightTester::TestEquality of src/test/weight-tester.h
(lines 154-163). -/
@[reducible] def TestEquality {W R B T : Type} (wt : WeightType W R B T) (w1 w2 w3 : W) : Prop :=
  wt.eq w1 w1 = true
  ∧ wt.eq w1 w2 = wt.eq w2 w1
  ∧ (wt.eq w1 w2 = true → wt.eq w2 w3 = true → wt.eq w1 w3 = true)

/-- Models WeightTester::TestIO of src/test/weight-tester.h (lines 166-187):
binary write then read must reproduce a value equal under operator==
(FST_CHECK_EQ); textual write then read must reproduce a value ApproxEqual
to the original. The stream plumbing is embedded as the codec fields of
WeightType. -/
@[reducible] def TestInOut {W R B T : Type} (wt : WeightType W R B T) (w : W) : Prop :=
  wt.eq w (wt.readBin (wt.writeBin w)) = true
  ∧ wt.approxEqual w (wt.readText (wt.showText w)) = true

/-- Models WeightTester::TestCopy of src/test/weight-tester.h (lines 190-199):
in a value model every copy and self-assignment is the identity, so each of
the three FST_CHECKs is equality of w with itself under operator==. -/
@[reducible] def TestCopy {W R B T : Type} (wt : WeightType W R B T) (w : W) : Prop :=
  wt.eq w w = true

/-- Models one iteration of WeightTester::Test of src/test/weight-tester.h
(lines 28-47) on the three sampled weights: TestSemiring, then TestDivision
when division testing is enabled, then TestReverse, TestEquality, TestIO and
TestCopy. The iteration passes when every FST_CHECK in it passes. -/
@[reducible] def TestRound {W R B T : Type} (wt : WeightType W R B T)
    (testDivision : Bool) (w1 w2 w3 : W) : Prop :=
  TestSemiring wt w1 w2 w3
  ∧ (testDivision = true → TestDivision wt w1 w2)
  ∧ TestReverse wt w1 w2
  ∧ TestEquality wt w1 w2 w3
  ∧ TestInOut wt w1
  ∧ TestCopy wt w1

/-- Models WeightTester::Test over a whole run: the generator draws a list of
sample triples (one per iteration) and every iteration must pass. -/
def TestAll {W R B T : Type} (wt : WeightType W R B T)
    (testDivision : Bool) (samples : List (W × W × W)) : Prop :=
  ∀ s ∈ samples, TestRound wt testDivision s.1 s.2.1 s.2.2

/-- Every FST_CHECK condition is decidable, so each harness test predicate is
decidable and can be evaluated on concrete weight types. -/
instance instDecidableTestSemiring {W R B T : Type} (wt : WeightType W R B T)
    (w1 w2 w3 : W) : Decidable (TestSemiring wt w1 w2 w3) := by
  unfold TestSemiring
  infer_instance

instance instDecidableTestDivision {W R B T : Type} (wt : WeightType W R B T)
    (w1 w2 : W) : Decidable (TestDivision wt w1 w2) := by
  unfold TestDivision
  infer_instance

instance instDecidableTestReverse {W R B T : Type} (wt : WeightType W R B T)
    (w1 w2 : W) : Decidable (TestReverse wt w1 w2) := by
  unfold TestReverse
  infer_instance

instance instDecidableTestEquality {W R B T : Type} (wt : WeightType W R B T)
    (w1 w2 w3 : W) : Decidable (TestEquality wt w1 w2 w3) := by
  unfold TestEquality
  infer_instance

instance instDecidableTestInOut {W R B T : Type} (wt : WeightType W R B T)
    (w : W) : Decidable (TestInOut wt w) := by
  unfold TestInOut
  infer_instance

instance instDecidableTestCopy {W R B T : Type} (wt : WeightType W R B T)
    (w : W) : Decidable (TestCopy wt w) := by
  unfold TestCopy
  infer_instance

instance instDecidableTestRound {W R B T : Type} (wt : WeightType W R B T)
    (td : Bool) (w1 w2 w3 : W) : Decidable (TestRound wt td w1 w2 w3) := by
  unfold TestRound
  infer_instance

/-- Pointwise lifting of a binary operation to Option, with none (the
non-member value) poisoning both operand positions; used by the concrete
weight types below. -/
def liftOp {A : Type} (f : A → A → A) : Option A → Option A → Option A
  | some x, some y => some (f x y)
  | _, _ => none

/-- A concrete weight type over Option Bool (none is the non-member value):
Plus is disjunction, Times is conjunction, operator== and ApproxEqual are both
exact equality, the mask declares Semiring and Commutative, and Divide of two
members returns some true on the left side and some false on every other
side. Every harness check passes on it, yet left and right division of a
product by the same divisor disagree. -/
def boolW : WeightType (Option Bool) (Option Bool) (Option Bool) (Option Bool) :=
  { plus := liftOp or
  , times := liftOp and
  , zero := some false
  , one := some true
  , noWeight := none
  , member := Option.isSome
  , eq := fun a b => a == b
  , approxEqual := fun a b => a == b
  , props := kSemiring ||| kCommutative
  , divide := fun a b s =>
      if a.isSome && b.isSome then
        (match s with
          | DivideType.DIVIDE_LEFT => some true
          | _ => some false)
      else none
  , reverse := id
  , rreverse := id
  , rplus := liftOp or
  , rtimes := liftOp and
  , req := fun a b => a == b
  , writeBin := id
  , readBin := id
  , showText := id
  , readText := id }

/-- A concrete weight type declaring only LeftSemiring: like boolW but its
Divide on any side other than DIVIDE_LEFT returns the member value some true
even when an operand is the non-member value. The harness never exercises
right division on it, so every harness check still passes. -/
def leftOnlyW : WeightType (Option Bool) (Option Bool) (Option Bool) (Option Bool) :=
  { plus := liftOp or
  , times := liftOp and
  , zero := some false
  , one := some true
  , noWeight := none
  , member := Option.isSome
  , eq := fun a b => a == b
  , approxEqual := fun a b => a == b
  , props := kLeftSemiring
  , divide := fun a b s =>
      match s with
      | DivideType.DIVIDE_LEFT => if a.isSome && b.isSome then some true else none
      | _ => some true
  , reverse := id
  , rreverse := id
  , rplus := liftOp or
  , rtimes := liftOp and
  , req := fun a b => a == b
  , writeBin := id
  , readBin := id
  , showText := id
  , readText := id }

/-- A concrete weight type whose textual codec is lossy (every weight prints
to the same token, which reads back as some true) while ApproxEqual holds
between any two members: the harness passes on it although the textual round
trip is not exact. -/
def lossyW : WeightType (Option Bool) (Option Bool) (Option Bool) Unit :=
  { plus := liftOp or
  , times := liftOp and
  , zero := some false
  , one := some true
  , noWeight := none
  , member := Option.isSome
  , eq := fun a b => a == b
  , approxEqual := fun a b => a.isSome && b.isSome
  , props := kSemiring
  , divide := fun a b _ => if a.isSome && b.isSome then some true else none
  , reverse := id
  , rreverse := id
  , rplus := liftOp or
  , rtimes := liftOp and
  , req := fun a b => a == b
  , writeBin := id
  , readBin := id
  , showText := fun _ => ()
  , readText := fun _ => some true }

/-- A concrete weight type whose Plus sends any two members to some true, so
the Zero identity holds only up to its coarse ApproxEqual (any two members
are approximately equal) and fails under operator==; TestSemiring rejects
it. -/
def approxIdW : WeightType (Option Bool) (Option Bool) (Option Bool) (Option Bool) :=
  { plus := fun a b => if a.isSome && b.isSome then some true else none
  , times := liftOp and
  , zero := some false
  , one := some true
  , noWeight := none
  , member := Option.isSome
  , eq := fun a b => a == b
  , approxEqual := fun a b => a.isSome && b.isSome
  , props := kSemiring
  , divide := fun a b _ => if a.isSome && b.isSome then some true else none
  , reverse := id
  , rreverse := id
  , rplus := fun a b => if a.isSome && b.isSome then some true else none
  , rtimes := liftOp and
  , req := fun a b => a == b
  , writeBin := id
  , readBin := id
  , showText := id
  , readText := id }

/-- A non-commutative, non-associative addition on Fin 3 with 0 as a two-sided
unit; its failures of exact associativity and exact commutativity are
invisible to a coarse ApproxEqual. -/
def plusF3 (a b : Fin 3) : Fin 3 :=
  if a = 0 then b
  else if b = 0 then a
  else if a = 1 ∧ b = 1 then 2
  else if a = 1 ∧ b = 2 then 1
  else if a = 2 ∧ b = 1 then 2
  else 1

/-- A concrete weight type over Option (Fin 3) whose Plus (plusF3) is exactly
non-associative and non-commutative while its ApproxEqual holds between any
two members, and whose Times is multiplication mod 3; TestSemiring passes on
it because associativity and commutativity of Plus are only checked up to
ApproxEqual. -/
def nonAssocW : WeightType (Option (Fin 3)) (Option (Fin 3)) (Option (Fin 3)) (Option (Fin 3)) :=
  { plus := liftOp plusF3
  , times := liftOp (fun a b => a * b)
  , zero := some 0
  , one := some 1
  , noWeight := none
  , member := Option.isSome
  , eq := fun a b => a == b
  , approxEqual := fun a b => a.isSome && b.isSome
  , props := kLeftSemiring
  , divide := fun a b _ => if a.isSome && b.isSome then some 1 else none
  , reverse := id
  , rreverse := id
  , rplus := liftOp plusF3
  , rtimes := liftOp (fun a b => a * b)
  , req := fun a b => a == b
  , writeBin := id
  , readBin := id
  , showText := id
  , readText := id }

/-- Addition on Fin 4 with 0 as a two-sided unit that sends any two nonzero
elements to 1; member-closed, exactly satisfying the Zero identities. -/
def plusF4 (a b : Fin 4) : Fin 4 :=
  if a = 0 then b
  else if b = 0 then a
  else 1

/-- Multiplication on Fin 4 with 0 absorbing and 1 a two-sided unit whose
restriction to 2 and 3 is exactly non-commutative and exactly non-associative:
timesF4 2 3 = 2 but timesF4 3 2 = 3, and timesF4 2 (timesF4 3 2) = 2 while
timesF4 (timesF4 2 3) 2 = 1. -/
def timesF4 (a b : Fin 4) : Fin 4 :=
  if a = 0 ∨ b = 0 then 0
  else if a = 1 then b
  else if b = 1 then a
  else if a = 2 ∧ b = 2 then 1
  else if a = 2 ∧ b = 3 then 2
  else if a = 3 ∧ b = 2 then 3
  else 1

/-- A concrete weight type over Option (Fin 4) declaring Semiring and
Commutative, whose Times (timesF4) is exactly non-associative and exactly
non-commutative and distributes over its Plus (plusF4) on neither side
exactly, while its coarse ApproxEqual holds between any two members;
TestSemiring passes on it because Times-associativity, Times-commutativity
and both distributivity laws are only checked up to ApproxEqual. -/
def nonDistribW : WeightType (Option (Fin 4)) (Option (Fin 4)) (Option (Fin 4)) (Option (Fin 4)) :=
  { plus := liftOp plusF4
  , times := liftOp timesF4
  , zero := some 0
  , one := some 1
  , noWeight := none
  , member := Option.isSome
  , eq := fun a b => a == b
  , approxEqual := fun a b => a.isSome && b.isSome
  , props := kSemiring ||| kCommutative
  , divide := fun a b _ => if a.isSome && b.isSome then some 1 else none
  , reverse := id
  , rreverse := id
  , rplus := liftOp plusF4
  , rtimes := liftOp timesF4
  , req := fun a b => a == b
  , writeBin := id
  , readBin := id
  , showText := id
  , readText := id }


/-- C2: a violated harness check is a hard assertion failure: FstCheck on a
false condition emits exactly one FATAL line on standard error identifying
the checked expression text, the source file and the line, and it terminates
the process with exit code 1, while a passing check emits nothing and
continues; no check violation is recoverable. -/
theorem fstCheck_violation_is_fatal (expr file : String) (line : Nat) :
    FstCheck true expr file line = none
    ∧ ∃ out : LogOutcome,
        FstCheck false expr file line = some out
        ∧ out.exited = some 1
        ∧ out.message = "FATAL" ++ ": "
            ++ ("Check failed: \"" ++ expr ++ "\" file: " ++ file
                ++ " line: " ++ toString line) := by
  exact ⟨rfl, ⟨_, rfl, rfl, rfl⟩⟩

/-- C8: invoked with more than two positional arguments left after flag
parsing (argc counts the program name, so argc > 3), the driver shows the
usage message and returns exit code 1 without attempting to read any
input. -/
theorem driver_usage_error (F : Type) (argv : List String)
    (read : String → Option F) (topSort : F → Bool × F)
    (write : F → String → Bool) (h : argv.length > 3) :
    (fsttopsort_main F argv read topSort write).usageShown = true
    ∧ (fsttopsort_main F argv read topSort write).exitCode = 1
    ∧ (fsttopsort_main F argv read topSort write).readAttempted = false := by
  unfold fsttopsort_main
  rw [if_pos h]
  exact ⟨rfl, rfl, rfl⟩

/-- C8 witness: three positional arguments give argc = 4, so the driver
reports a usage error without reading. -/
theorem driver_usage_error_witness :
    (["prog", "a.fst", "b.fst", "c.fst"] : List String).length > 3
    ∧ (fsttopsort_main Nat ["prog", "a.fst", "b.fst", "c.fst"]
        (fun _ => some 0) (fun f => (true, f)) (fun _ _ => true)).exitCode = 1
    ∧ (fsttopsort_main Nat ["prog", "a.fst", "b.fst", "c.fst"]
        (fun _ => some 0) (fun f => (true, f)) (fun _ _ => true)).readAttempted = false := by
  refine ⟨by decide, ?_, ?_⟩
  · exact (driver_usage_error Nat ["prog", "a.fst", "b.fst", "c.fst"]
      (fun _ => some 0) (fun f => (true, f)) (fun _ _ => true) (by decide)).2.1
  · exact (driver_usage_error Nat ["prog", "a.fst", "b.fst", "c.fst"]
      (fun _ => some 0) (fun f => (true, f)) (fun _ _ => true) (by decide)).2.2

/-- C9: when deserialization fails (Read yields no graph), the driver returns
exit code 1, never invokes TopSort and writes no output. -/
theorem driver_read_failure (F : Type) (argv : List String)
    (read : String → Option F) (topSort : F → Bool × F)
    (write : F → String → Bool)
    (hargs : ¬ argv.length > 3) (hread : read (inName argv) = none) :
    (fsttopsort_main F argv read topSort write).exitCode = 1
    ∧ (fsttopsort_main F argv read topSort write).topSortCalls = 0
    ∧ (fsttopsort_main F argv read topSort write).written = none := by
  unfold fsttopsort_main
  rw [if_neg hargs, hread]
  exact ⟨rfl, rfl, rfl⟩

/-- C9 witness: a failing read on the standard-input path exits 1 with no
sort and no output. -/
theorem driver_read_failure_witness :
    ¬ (["prog"] : List String).length > 3
    ∧ ((fun _ => none : String → Option Nat) (inName ["prog"])) = none
    ∧ (fsttopsort_main Nat ["prog"] (fun _ => none)
        (fun f => (true, f)) (fun _ _ => true)).exitCode = 1
    ∧ (fsttopsort_main Nat ["prog"] (fun _ => none)
        (fun f => (true, f)) (fun _ _ => true)).topSortCalls = 0 := by
  refine ⟨by decide, rfl, ?_, ?_⟩
  · exact (driver_read_failure Nat ["prog"] (fun _ => none)
      (fun f => (true, f)) (fun _ _ => true) (by decide) rfl).1
  · exact (driver_read_failure Nat ["prog"] (fun _ => none)
      (fun f => (true, f)) (fun _ _ => true) (by decide) rfl).2.1

/-- C1: whenever the driver deserializes an input graph successfully it
invokes TopSort exactly once; on a cyclic verdict it emits one WARNING line
to standard error whose text contains "Input FST is cyclic" (as a suffix)
and which is non-fatal, while on an acyclic verdict it emits nothing; in
both cases it still writes the resulting graph, and the exit code is 0 when
the write succeeds and 1 when the write fails, by a formula independent of
the cyclicity verdict. -/
theorem driver_sorts_once_warns_and_writes (F : Type) (argv : List String)
    (read : String → Option F) (topSort : F → Bool × F)
    (write : F → String → Bool) (f : F)
    (hargs : ¬ argv.length > 3) (hread : read (inName argv) = some f) :
    (fsttopsort_main F argv read topSort write).topSortCalls = 1
    ∧ (fsttopsort_main F argv read topSort write).written = some (topSort f).2
    ∧ (fsttopsort_main F argv read topSort write).exitCode
        = (if write (topSort f).2 (outName argv) then 0 else 1)
    ∧ ((topSort f).1 = false →
        (fsttopsort_main F argv read topSort write).stderrLog
          = [LogMessage "WARNING" (argv.headD "" ++ ": Input FST is cyclic")])
    ∧ ((topSort f).1 = true →
        (fsttopsort_main F argv read topSort write).stderrLog = [])
    ∧ (∀ m ∈ (fsttopsort_main F argv read topSort write).stderrLog,
        m.exited = none ∧ ("Input FST is cyclic").data <:+ m.message.data) := by
  unfold fsttopsort_main
  rw [if_neg hargs, hread]
  refine ⟨rfl, rfl, rfl, ?_, ?_, ?_⟩
  · intro hcyc
    simp only [hcyc, Bool.false_eq_true, if_false]
  · intro hacyc
    simp only [hacyc, if_true]
  · intro m hm
    rcases hver : (topSort f).1 with _ | _
    · simp only [hver, Bool.false_eq_true, if_false, List.mem_singleton] at hm
      subst hm
      constructor
      · show (if ("WARNING" : String) = "FATAL" then some 1 else none) = none
        rw [if_neg (by decide)]
      · show ("Input FST is cyclic").data
          <:+ ("WARNING" ++ ": " ++ (argv.headD "" ++ ": Input FST is cyclic")).data
        rw [String.data_append, String.data_append]
        refine List.IsSuffix.trans ?_ (List.suffix_append _ _)
        rw [String.data_append]
        exact List.IsSuffix.trans (by decide) (List.suffix_append _ _)
    · simp only [hver, if_true] at hm
      exact absurd hm (List.not_mem_nil m)

/-- C1 witness: a one-argument invocation whose read succeeds, whose sort
reports a cycle and whose write succeeds: TopSort ran once, the cyclic
warning was logged and the exit code is 0. -/
theorem driver_sorts_once_warns_and_writes_witness :
    ¬ (["prog"] : List String).length > 3
    ∧ ((fun _ => some 7 : String → Option Nat) (inName ["prog"])) = some 7
    ∧ (fsttopsort_main Nat ["prog"] (fun _ => some 7)
        (fun f => (false, f)) (fun _ _ => true)).topSortCalls = 1
    ∧ (fsttopsort_main Nat ["prog"] (fun _ => some 7)
        (fun f => (false, f)) (fun _ _ => true)).exitCode
        = (if (fun _ _ => true : Nat → String → Bool) 7 (outName ["prog"]) then 0 else 1)
    ∧ (fsttopsort_main Nat ["prog"] (fun _ => some 7)
        (fun f => (false, f)) (fun _ _ => true)).stderrLog
        = [LogMessage "WARNING" ((["prog"] : List String).headD "" ++ ": Input FST is cyclic")] := by
  refine ⟨by decide, rfl, ?_, ?_, ?_⟩
  · exact (driver_sorts_once_warns_and_writes Nat ["prog"] (fun _ => some 7)
      (fun f => (false, f)) (fun _ _ => true) 7 (by decide) rfl).1
  · exact (driver_sorts_once_warns_and_writes Nat ["prog"] (fun _ => some 7)
      (fun f => (false, f)) (fun _ _ => true) 7 (by decide) rfl).2.2.1
  · exact (driver_sorts_once_warns_and_writes Nat ["prog"] (fun _ => some 7)
      (fun f => (false, f)) (fun _ _ => true) 7 (by decide) rfl).2.2.2.1 rfl

/-- A nonzero conjunction with the two-bit mask 3 means at least one of the
two low bits is set; helper for reading the mask check of TestSemiring. -/
theorem mask_lr_split (n : Nat) (h : n &&& 3 ≠ 0) : n &&& 1 ≠ 0 ∨ n &&& 2 ≠ 0 := by
  by_contra hc
  push_neg at hc
  apply h
  apply Nat.eq_of_testBit_eq
  intro i
  have e1 : (n &&& 1).testBit 0 = false := by rw [hc.1]; exact Nat.zero_testBit 0
  have e2 : (n &&& 2).testBit 1 = false := by rw [hc.2]; exact Nat.zero_testBit 1
  rw [Nat.testBit_and] at e1 e2
  rw [Nat.testBit_and, Nat.zero_testBit]
  match i with
  | 0 => simpa using e1
  | 1 => simpa using e2
  | i + 2 =>
    have h3 : (3 : Nat).testBit (i + 2) = false := by
      apply Nat.testBit_lt_two_pow
      have : 2 ^ 2 ≤ 2 ^ (i + 2) := Nat.pow_le_pow_right (by omega) (by omega)
      omega
    simp [h3]

/-- C3 counterexample: leftOnlyW, which declares only LeftSemiring, passes a
full harness round with division testing enabled although its Divide with the
NoWeight divisor on the right side yields a member value; so the harness does
not assert the right-division NoWeight checks for every weight type, refuting
the claim as stated. -/
theorem noWeight_poisons_cex :
    TestRound leftOnlyW true (some true) (some true) (some true)
    ∧ leftOnlyW.member
        (leftOnlyW.divide (some true) leftOnlyW.noWeight DivideType.DIVIDE_RIGHT) = true := by
  exact ⟨by decide, by decide⟩

/-- C3 (amended): in every passing harness round with division testing
enabled, NoWeight is non-member, Plus and Times with a NoWeight operand in
either position yield non-member values, and Divide with a NoWeight operand
in either position (dividend or divisor) yields a non-member value for left
division whenever LeftSemiring is declared and for right division whenever
RightSemiring is declared. -/
theorem noWeight_poisons (W R B T : Type) (wt : WeightType W R B T)
    (w1 w2 w3 : W) (h : TestRound wt true w1 w2 w3) :
    wt.member wt.noWeight = false
    ∧ wt.member (wt.plus w1 wt.noWeight) = false
    ∧ wt.member (wt.plus wt.noWeight w1) = false
    ∧ wt.member (wt.times w1 wt.noWeight) = false
    ∧ wt.member (wt.times wt.noWeight w1) = false
    ∧ (wt.props &&& kLeftSemiring ≠ 0 →
        wt.member (wt.divide w1 wt.noWeight DivideType.DIVIDE_LEFT) = false
        ∧ wt.member (wt.divide wt.noWeight w1 DivideType.DIVIDE_LEFT) = false)
    ∧ (wt.props &&& kRightSemiring ≠ 0 →
        wt.member (wt.divide w1 wt.noWeight DivideType.DIVIDE_RIGHT) = false
        ∧ wt.member (wt.divide wt.noWeight w1 DivideType.DIVIDE_RIGHT) = false) := by
  obtain ⟨hs, hd, -, -, -, -⟩ := h
  obtain ⟨-, -, -, -, -, -, -, -, c9, c10, c11, c12, c13, -, -, -, -, -, -, -,
    -, -, -, -, -, -⟩ := hs
  obtain ⟨dL, dR, -⟩ := hd rfl
  refine ⟨c9, c10, c11, c12, c13, ?_, ?_⟩
  · intro hl
    exact ⟨(dL hl).2.1, (dL hl).2.2⟩
  · intro hr
    exact ⟨(dR hr).2.1, (dR hr).2.2⟩

/-- C3 witness: boolW declares both semiring sides, passes a full round, and
its right division with the NoWeight dividend is indeed non-member. -/
theorem noWeight_poisons_witness :
    TestRound boolW true (some false) (some true) (some true)
    ∧ boolW.member (boolW.divide boolW.noWeight (some false) DivideType.DIVIDE_RIGHT) = false := by
  refine ⟨by decide, ?_⟩
  exact ((noWeight_poisons (Option Bool) (Option Bool) (Option Bool) (Option Bool)
    boolW (some false) (some true) (some true) (by decide)).2.2.2.2.2.2 (by decide)).2

/-- C4 counterexample: boolW declares Commutative and passes a full harness
round with division testing enabled, yet left and right division of
p = Times(w1, w2) by w1 disagree both under operator== and under ApproxEqual;
so the harness does not check that they agree, refuting the claim as
stated. -/
theorem commutative_division_agreement_cex :
    TestRound boolW true (some false) (some true) (some true)
    ∧ boolW.props &&& kCommutative ≠ 0
    ∧ boolW.eq
        (boolW.divide (boolW.times (some false) (some true)) (some false) DivideType.DIVIDE_LEFT)
        (boolW.divide (boolW.times (some false) (some true)) (some false) DivideType.DIVIDE_RIGHT)
        = false
    ∧ boolW.approxEqual
        (boolW.divide (boolW.times (some false) (some true)) (some false) DivideType.DIVIDE_LEFT)
        (boolW.divide (boolW.times (some false) (some true)) (some false) DivideType.DIVIDE_RIGHT)
        = false := by
  exact ⟨by decide, by decide, by decide, by decide⟩

/-- C4 (amended): when the weight type declares Commutative, the division
test checks, for every sampled pair w1, w2 with p = Times(w1, w2), that the
right division of p by w1, whenever it is a member, recombines on the right:
Times(Divide(p, w1, DIVIDE_RIGHT), w1) is ApproxEqual to p. -/
theorem commutative_division_recombines (W R B T : Type) (wt : WeightType W R B T)
    (w1 w2 w3 : W) (h : TestRound wt true w1 w2 w3)
    (hc : wt.props &&& kCommutative ≠ 0)
    (hm : wt.member (wt.divide (wt.times w1 w2) w1 DivideType.DIVIDE_RIGHT) = true) :
    wt.approxEqual (wt.times w1 w2)
      (wt.times (wt.divide (wt.times w1 w2) w1 DivideType.DIVIDE_RIGHT) w1) = true := by
  exact (h.2.1 rfl).2.2 hc hm

/-- C4 witness: on boolW with w1 = some false and w2 = some true the right
quotient is a member and the recombination check holds. -/
theorem commutative_division_recombines_witness :
    TestRound boolW true (some false) (some true) (some true)
    ∧ boolW.approxEqual (boolW.times (some false) (some true))
        (boolW.times
          (boolW.divide (boolW.times (some false) (some true)) (some false)
            DivideType.DIVIDE_RIGHT)
          (some false)) = true := by
  refine ⟨by decide, ?_⟩
  exact commutative_division_recombines (Option Bool) (Option Bool) (Option Bool) (Option Bool)
    boolW (some false) (some true) (some true) (by decide) (by decide) (by decide)

/-- C5: in every passing harness round the binary serialization round trip is
asserted exact (operator==) and the textual round trip is asserted only up to
ApproxEqual; lossyW shows the textual standard really is weaker: it passes a
full round although its textual round trip is not exactly equal. -/
theorem serialization_roundtrip_standards :
    (∀ (W R B T : Type) (wt : WeightType W R B T) (td : Bool) (w1 w2 w3 : W),
        TestRound wt td w1 w2 w3 →
          wt.eq w1 (wt.readBin (wt.writeBin w1)) = true
          ∧ wt.approxEqual w1 (wt.readText (wt.showText w1)) = true)
    ∧ TestRound lossyW true (some false) (some true) (some true)
    ∧ lossyW.eq (some false) (lossyW.readText (lossyW.showText (some false))) = false := by
  refine ⟨?_, by decide, by decide⟩
  intro W R B T wt td w1 w2 w3 h
  exact h.2.2.2.2.1

/-- C5 witness: the binary and textual round-trip checks extracted from a
passing round of boolW. -/
theorem serialization_roundtrip_standards_witness :
    TestRound boolW true (some false) (some true) (some true)
    ∧ boolW.eq (some false) (boolW.readBin (boolW.writeBin (some false))) = true := by
  refine ⟨by decide, ?_⟩
  exact (serialization_roundtrip_standards.1 (Option Bool) (Option Bool) (Option Bool)
    (Option Bool) boolW true (some false) (some true) (some true) (by decide)).1

/-- C6: every passing harness round asserts that Power agrees with its
recursive definition (repeated Times with Power(w, 0) = One()) at exponents
0, 1 and 3: Power(w1, 0) equals One(), Power(w1, 1) equals w1, and
Power(w1, 3) equals Times(w1, Times(w1, w1)), all under operator==. -/
theorem power_checked_at_0_1_3 (W R B T : Type) (wt : WeightType W R B T)
    (td : Bool) (w1 w2 w3 : W) (h : TestRound wt td w1 w2 w3) :
    wt.eq (wt.Power w1 0) wt.one = true
    ∧ wt.eq (wt.Power w1 1) w1 = true
    ∧ wt.eq (wt.Power w1 3) (wt.times w1 (wt.times w1 w1)) = true := by
  obtain ⟨hs, -, -, -, -, -⟩ := h
  obtain ⟨-, -, -, -, -, -, -, -, -, -, -, -, -, -, -, -, -, c18, c19, c20,
    -, -, -, -, -, -⟩ := hs
  exact ⟨c18, c19, c20⟩

/-- C6 witness: the three Power checks extracted from a passing round of
boolW. -/
theorem power_checked_at_0_1_3_witness :
    TestRound boolW true (some false) (some true) (some true)
    ∧ boolW.eq (boolW.Power (some false) 3)
        (boolW.times (some false) (boolW.times (some false) (some false))) = true := by
  refine ⟨by decide, ?_⟩
  exact (power_checked_at_0_1_3 (Option Bool) (Option Bool) (Option Bool) (Option Bool)
    boolW true (some false) (some true) (some true) (by decide)).2.2

/-- C7: every passing harness round validates the declared properties mask:
at least one of the LeftSemiring and RightSemiring bits is set (so a weight
type declaring neither fails), and if the Commutative bit is set then the
Semiring bits are set as well. -/
theorem properties_mask_validated (W R B T : Type) (wt : WeightType W R B T)
    (td : Bool) (w1 w2 w3 : W) (h : TestRound wt td w1 w2 w3) :
    (wt.props &&& kLeftSemiring ≠ 0 ∨ wt.props &&& kRightSemiring ≠ 0)
    ∧ (wt.props &&& kCommutative ≠ 0 → wt.props &&& kSemiring ≠ 0) := by
  obtain ⟨hs, -, -, -, -, -⟩ := h
  obtain ⟨-, -, -, -, -, -, -, -, -, -, -, -, -, -, -, -, -, -, -, -,
    -, -, -, -, c25, c26⟩ := hs
  exact ⟨mask_lr_split wt.props c25, c26⟩

/-- C7 witness: the mask validation extracted from a passing round of boolW,
which declares Semiring and Commutative. -/
theorem properties_mask_validated_witness :
    TestRound boolW true (some false) (some true) (some true)
    ∧ (boolW.props &&& kLeftSemiring ≠ 0 ∨ boolW.props &&& kRightSemiring ≠ 0) := by
  refine ⟨by decide, ?_⟩
  exact (properties_mask_validated (Option Bool) (Option Bool) (Option Bool) (Option Bool)
    boolW true (some false) (some true) (some true) (by decide)).1

/-- C10: TestSemiring applies two equality standards. First, every passing
run asserts the identity laws, Zero annihilation, the Power checks and the
declared idempotence and path checks under exact operator==, while asserting
Plus- and Times-associativity, Plus-commutativity, declared
Times-commutativity and declared left/right distributivity only up to
ApproxEqual. Second, approxIdW, whose Zero identity holds only up to its
ApproxEqual, fails TestSemiring. Third, nonAssocW passes TestSemiring though
its Plus is exactly non-associative and non-commutative, and nonDistribW
(declaring Semiring and Commutative) passes TestSemiring though its Times is
exactly non-associative and non-commutative and exactly distributes over its
Plus on neither side, every such failure lying within ApproxEqual
tolerance. -/
theorem harness_equality_standards :
    (∀ (W R B T : Type) (wt : WeightType W R B T) (w1 w2 w3 : W),
        TestSemiring wt w1 w2 w3 →
          wt.eq (wt.plus w1 wt.zero) w1 = true
          ∧ wt.eq (wt.plus wt.zero w1) w1 = true
          ∧ wt.eq (wt.times w1 wt.one) w1 = true
          ∧ wt.eq (wt.times wt.one w1) w1 = true
          ∧ wt.eq (wt.times w1 wt.zero) wt.zero = true
          ∧ wt.eq (wt.times wt.zero w1) wt.zero = true
          ∧ wt.eq (wt.Power w1 0) wt.one = true
          ∧ wt.eq (wt.Power w1 1) w1 = true
          ∧ wt.eq (wt.Power w1 3) (wt.times w1 (wt.times w1 w1)) = true
          ∧ (wt.props &&& kIdempotent ≠ 0 → wt.eq (wt.plus w1 w1) w1 = true)
          ∧ (wt.props &&& kPath ≠ 0 →
              (wt.eq (wt.plus w1 w2) w1 = true ∨ wt.eq (wt.plus w1 w2) w2 = true))
          ∧ wt.approxEqual (wt.plus w1 (wt.plus w2 w3)) (wt.plus (wt.plus w1 w2) w3) = true
          ∧ wt.approxEqual (wt.times w1 (wt.times w2 w3)) (wt.times (wt.times w1 w2) w3) = true
          ∧ wt.approxEqual (wt.plus w1 w2) (wt.plus w2 w1) = true
          ∧ (wt.props &&& kCommutative ≠ 0 →
              wt.approxEqual (wt.times w1 w2) (wt.times w2 w1) = true)
          ∧ (wt.props &&& kLeftSemiring ≠ 0 →
              wt.approxEqual (wt.times w1 (wt.plus w2 w3))
                (wt.plus (wt.times w1 w2) (wt.times w1 w3)) = true)
          ∧ (wt.props &&& kRightSemiring ≠ 0 →
              wt.approxEqual (wt.times (wt.plus w1 w2) w3)
                (wt.plus (wt.times w1 w3) (wt.times w2 w3)) = true))
    ∧ ¬ TestSemiring approxIdW (some false) (some false) (some false)
    ∧ approxIdW.approxEqual (approxIdW.plus (some false) approxIdW.zero) (some false) = true
    ∧ approxIdW.eq (approxIdW.plus (some false) approxIdW.zero) (some false) = false
    ∧ TestSemiring nonAssocW (some 1) (some 2) (some 2)
    ∧ nonAssocW.approxEqual (nonAssocW.plus (some 1) (nonAssocW.plus (some 2) (some 2)))
        (nonAssocW.plus (nonAssocW.plus (some 1) (some 2)) (some 2)) = true
    ∧ nonAssocW.eq (nonAssocW.plus (some 1) (nonAssocW.plus (some 2) (some 2)))
        (nonAssocW.plus (nonAssocW.plus (some 1) (some 2)) (some 2)) = false
    ∧ nonAssocW.eq (nonAssocW.plus (some 1) (some 2)) (nonAssocW.plus (some 2) (some 1))
        = false
    ∧ TestSemiring nonDistribW (some 2) (some 3) (some 2)
    ∧ nonDistribW.props &&& kCommutative ≠ 0
    ∧ nonDistribW.props &&& kLeftSemiring ≠ 0
    ∧ nonDistribW.props &&& kRightSemiring ≠ 0
    ∧ nonDistribW.eq (nonDistribW.times (some 2) (nonDistribW.times (some 3) (some 2)))
        (nonDistribW.times (nonDistribW.times (some 2) (some 3)) (some 2)) = false
    ∧ nonDistribW.approxEqual (nonDistribW.times (some 2) (nonDistribW.times (some 3) (some 2)))
        (nonDistribW.times (nonDistribW.times (some 2) (some 3)) (some 2)) = true
    ∧ nonDistribW.eq (nonDistribW.times (some 2) (some 3))
        (nonDistribW.times (some 3) (some 2)) = false
    ∧ nonDistribW.approxEqual (nonDistribW.times (some 2) (some 3))
        (nonDistribW.times (some 3) (some 2)) = true
    ∧ nonDistribW.eq (nonDistribW.times (some 2) (nonDistribW.plus (some 3) (some 2)))
        (nonDistribW.plus (nonDistribW.times (some 2) (some 3))
          (nonDistribW.times (some 2) (some 2))) = false
    ∧ nonDistribW.approxEqual (nonDistribW.times (some 2) (nonDistribW.plus (some 3) (some 2)))
        (nonDistribW.plus (nonDistribW.times (some 2) (some 3))
          (nonDistribW.times (some 2) (some 2))) = true
    ∧ nonDistribW.eq (nonDistribW.times (nonDistribW.plus (some 2) (some 3)) (some 2))
        (nonDistribW.plus (nonDistribW.times (some 2) (some 2))
          (nonDistribW.times (some 3) (some 2))) = false
    ∧ nonDistribW.approxEqual (nonDistribW.times (nonDistribW.plus (some 2) (some 3)) (some 2))
        (nonDistribW.plus (nonDistribW.times (some 2) (some 2))
          (nonDistribW.times (some 3) (some 2))) = true := by
  refine ⟨?_, by decide⟩
  intro W R B T wt w1 w2 w3 hs
  obtain ⟨-, -, c3, c4, c5, c6, c7, c8, -, -, -, -, -, c14, c15, c16, c17, c18, c19, c20,
    c21, c22, c23, c24, -, -⟩ := hs
  exact ⟨c5, c6, c7, c8, c16, c17, c18, c19, c20, c23, c24, c3, c4, c14, c15, c21, c22⟩

/-- C10 witness: the exact-standard and approximate-standard facts extracted
from a passing TestSemiring run of boolW, discharging both the run hypothesis
and the left-distributivity mask condition. -/
theorem harness_equality_standards_witness :
    TestSemiring boolW (some false) (some true) (some true)
    ∧ boolW.props &&& kLeftSemiring ≠ 0
    ∧ boolW.eq (boolW.plus (some false) boolW.zero) (some false) = true
    ∧ boolW.approxEqual (boolW.times (some false) (boolW.plus (some true) (some true)))
        (boolW.plus (boolW.times (some false) (some true))
          (boolW.times (some false) (some true))) = true := by
  refine ⟨by decide, by decide, ?_, ?_⟩
  · exact (harness_equality_standards.1 (Option Bool) (Option Bool) (Option Bool) (Option Bool)
      boolW (some false) (some true) (some true) (by decide)).1
  · have h := harness_equality_standards.1 (Option Bool) (Option Bool) (Option Bool) (Option Bool)
      boolW (some false) (some true) (some true) (by decide)
    obtain ⟨-, -, -, -, -, -, -, -, -, -, -, -, -, -, -, hld, -⟩ := h
    exact hld (by decide)

